import Mathlib

/-!
Verification of the page-eviction pass `__wt_evict_file` (WiredTiger engine
code embedded in this repository).  The function is translated below as a
shallow embedding: the external collaborators (reconciliation, the tree
walk, the block eviction, the MVCC visibility predicate, the exclusive
gate) are supplied by an environment, and the pass records a trace of the
calls it makes, so that ordering and accounting properties can be stated.
-/

namespace WtEvict

/-- The page modify record (`WT_PAGE_MODIFY`): the write generation, the
highest transaction id reflected by the last reconciliation, and the
`WT_PM_REC_EMPTY` flag. -/
structure Modify where
  write_gen : Nat
  rec_max_txn : Nat
  rec_empty : Bool
deriving DecidableEq, Repr

/-- An in-memory page (`WT_PAGE`): it carries a modify record once the page
has been modified at least once. -/
structure Page where
  modify : Option Modify
deriving DecidableEq, Repr

/-- A reference to a page in the tree (`WT_REF`), as produced by the tree
walk: an identity, the root marker, and the page it addresses. -/
structure Ref where
  id : Nat
  isRoot : Bool
  page : Page
deriving DecidableEq, Repr

/-- Error values returned by the pass: `EBUSY`, the illegal-syncop error
produced by `WT_ILLEGAL_VALUE_ERR`, and opaque error codes coming back from
the external collaborators. -/
inductive Err where
  | ebusy
  | illegal
  | ext (n : Nat)
deriving DecidableEq, Repr

/-- The sync operation requested by the caller: `WT_SYNC_CLOSE`,
`WT_SYNC_DISCARD`, `WT_SYNC_DISCARD_FORCE`, or any other value (which the
switch statement treats as an illegal value). -/
inductive Syncop where
  | close
  | discard
  | discardForce
  | other
deriving DecidableEq, Repr

/-- Trace events: one per call the pass makes into its collaborators, plus
the session/btree flag transitions. -/
inductive Ev where
  | exclusiveOn
  | exclusiveOff
  | updateOldest
  | walkAdvance
  | reconcile (id : Nat) (evicting : Bool)
  | evict (id : Nat)
  | dirtyDecr (id : Nat)
  | setForce
  | cleanUpdate (id : Nat)
  | clrForce
  | pageRelease (id : Nat)
deriving DecidableEq, Repr

/-- The mutable state the pass reads and writes: the btree
`WT_BTREE_NO_EVICTION` flag, the session `WT_SESSION_DISCARD_FORCE` flag,
and the aggregate dirty-byte accounting of the cache. -/
structure St where
  noEviction : Bool
  discardForce : Bool
  cacheDirty : Int
deriving DecidableEq, Repr

/-- Outcome of one `__wt_tree_walk` call: `err = none` means the call
succeeded and left `cursor` in the by-reference ref argument; `err = some e`
means the call failed, with `cursor` whatever the walk left behind. -/
structure WalkOut where
  err : Option Err
  cursor : Option Ref
deriving DecidableEq, Repr

/-- The end-of-tree walk outcome: success with no next page. -/
def endOfTree : WalkOut := { err := none, cursor := none }

/-- The environment of external collaborators: `__wt_evict_file_exclusive_on`,
`__wt_reconcile`, `__wt_evict`, `__wt_txn_visible_all` and
`__wt_page_release`.  Reconciliation returns the updated page (it may set
the empty flag or clear dirty state in the modify record). -/
structure Env where
  exclusiveOn : Except Err Unit
  reconcile : Ref → Except Err Page
  evict : Ref → Except Err Unit
  visibleAll : Nat → Bool
  pageRelease : Ref → Except Err Unit

/-- Modelled from the spec: `__wt_page_is_modified` lives in wt_internal.h,
which is not among the sources.  The spec says a page is modified iff a
modify record exists and represents unreconciled state, with the write
generation invalidated to zero when the page is cleaned; so the test is
that a modify record exists and its write generation is nonzero. -/
def pageIsModified (p : Page) : Bool :=
  match p.modify with
  | none => false
  | some m => m.write_gen != 0

/-- The `F_ISSET(page->modify, WT_PM_REC_EMPTY)` test; only meaningful when
the modify record exists, which is how the source guards it. -/
def pmRecEmpty (p : Page) : Bool :=
  match p.modify with
  | none => false
  | some m => m.rec_empty

/-- The `page->modify->rec_max_txn` field; the source only reads it under a
`page->modify != NULL` guard. -/
def recMaxTxn (p : Page) : Nat :=
  match p.modify with
  | none => 0
  | some m => m.rec_max_txn

/-- The `page->modify->write_gen = 0` store of the discard arm. -/
def zeroWriteGen (p : Page) : Page :=
  { p with modify := p.modify.map (fun m => { m with write_gen := 0 }) }

/-- Result of handling one visited page: `err = none` means the loop
continues with `cursor` as the next ref; `err = some e` means a `WT_ERR`
jumped to the error label with `cursor` in `next_ref`.  The record also
carries the updated state, the events of this step, and the final in-memory
state of the handled page. -/
structure StepOut where
  err : Option Err
  cursor : Option Ref
  st : St
  tr : List Ev
  finalPage : Nat × Page
deriving Repr

/-- The reconcile-if-dirty step at the top of the loop body:
`if (syncop == WT_SYNC_CLOSE && __wt_page_is_modified(page))
WT_ERR(__wt_reconcile(session, ref, NULL, WT_EVICTING));`.  On success it
returns the (possibly updated) page and the reconcile event; the Boolean on
the event records that the `WT_EVICTING` hint was passed. -/
def reconcileStep (env : Env) (syncop : Syncop) (ref : Ref) :
    Except Err (Page × List Ev) :=
  if syncop = Syncop.close ∧ pageIsModified ref.page then
    match env.reconcile ref with
    | Except.error e => Except.error e
    | Except.ok page2 => Except.ok (page2, [Ev.reconcile ref.id true])
  else
    Except.ok (ref.page, [])

/-- The `WT_SYNC_DISCARD` / `WT_SYNC_DISCARD_FORCE` arm of the switch:
clean the page if modified (zero the write generation and decrement the
dirty accounting), stop with `EBUSY` when in plain discard mode the modify
record carries a transaction id not visible to all, otherwise set the
session discard-force flag in force mode, discard the page via
`__wt_rec_page_clean_update`, and clear the flag unconditionally. -/
def discardStep (env : Env) (syncop : Syncop) (ref : Ref)
    (cursor : Option Ref) (page : Page) (st : St) (tr1 : List Ev) : StepOut :=
  let p2 := if pageIsModified page then zeroWriteGen page else page
  let st2 := if pageIsModified page then
      { st with cacheDirty := st.cacheDirty - 1 } else st
  let tr2 := if pageIsModified page then tr1 ++ [Ev.dirtyDecr ref.id] else tr1
  if syncop = Syncop.discard ∧ p2.modify.isSome ∧
      env.visibleAll (recMaxTxn p2) = false then
    { err := some Err.ebusy, cursor := cursor, st := st2, tr := tr2,
      finalPage := (ref.id, p2) }
  else
    let st3 := if syncop = Syncop.discardForce then
        { st2 with discardForce := true } else st2
    let tr3 := if syncop = Syncop.discardForce then
        tr2 ++ [Ev.setForce] else tr2
    { err := none, cursor := cursor,
      st := { st3 with discardForce := false },
      tr := tr3 ++ [Ev.cleanUpdate ref.id] ++ [Ev.clrForce],
      finalPage := (ref.id, p2) }

/-- One iteration of the eviction loop body for the page `ref`, with `w` the
outcome the next `__wt_tree_walk` call will report: reconcile the page when
in close mode and modified, advance the walk one page ahead, then apply the
syncop switch to the saved ref. -/
def handlePage (env : Env) (syncop : Syncop) (ref : Ref) (w : WalkOut)
    (st : St) : StepOut :=
  match reconcileStep env syncop ref with
  | Except.error e =>
      { err := some e, cursor := some ref, st := st,
        tr := [Ev.reconcile ref.id true], finalPage := (ref.id, ref.page) }
  | Except.ok (page, tr0) =>
    let tr1 := tr0 ++ [Ev.walkAdvance]
    match w.err with
    | some e =>
        { err := some e, cursor := w.cursor, st := st, tr := tr1,
          finalPage := (ref.id, page) }
    | none =>
      match syncop with
      | Syncop.close =>
          if ref.isRoot = true ∨ page.modify = none ∨ pmRecEmpty page = false
          then
            match env.evict ref with
            | Except.error e =>
                { err := some e, cursor := w.cursor, st := st,
                  tr := tr1 ++ [Ev.evict ref.id], finalPage := (ref.id, page) }
            | Except.ok _ =>
                { err := none, cursor := w.cursor, st := st,
                  tr := tr1 ++ [Ev.evict ref.id], finalPage := (ref.id, page) }
          else
            { err := none, cursor := w.cursor, st := st, tr := tr1,
              finalPage := (ref.id, page) }
      | Syncop.discard => discardStep env syncop ref w.cursor page st tr1
      | Syncop.discardForce => discardStep env syncop ref w.cursor page st tr1
      | Syncop.other =>
          { err := some Err.illegal, cursor := w.cursor, st := st, tr := tr1,
            finalPage := (ref.id, page) }

/-- Accumulated outcome of the walk loop: `out = none` when the loop ran to
completion, `out = some (e, cursor)` when a step jumped to the error label
with error `e` and `cursor` in `next_ref`. -/
structure LoopOut where
  out : Option (Err × Option Ref)
  st : St
  tr : List Ev
  pages : List (Nat × Page)
deriving Repr

/-- The `while ((ref = next_ref) != NULL)` loop, driven by the script of
walk outcomes; each iteration consumes the next script entry for its
advance.  When the script is exhausted the walk reports end-of-tree, so the
handled cursor is none and the following iteration exits the loop; that
final empty iteration is unrolled into the script-exhausted branch. -/
def evictLoop (env : Env) (syncop : Syncop) :
    Option Ref → List WalkOut → St → LoopOut
  | none, _, st => { out := none, st := st, tr := [], pages := [] }
  | some ref, [], st =>
      let o := handlePage env syncop ref endOfTree st
      match o.err with
      | some e =>
          { out := some (e, o.cursor), st := o.st, tr := o.tr,
            pages := [o.finalPage] }
      | none =>
          { out := none, st := o.st, tr := o.tr, pages := [o.finalPage] }
  | some ref, w :: rest, st =>
      let o := handlePage env syncop ref w st
      match o.err with
      | some e =>
          { out := some (e, o.cursor), st := o.st, tr := o.tr,
            pages := [o.finalPage] }
      | none =>
          let r := evictLoop env syncop o.cursor rest o.st
          { out := r.out, st := r.st, tr := o.tr ++ r.tr,
            pages := o.finalPage :: r.pages }

/-- Outcome of the error label and the shared exit path. -/
structure CleanupOut where
  ret : Except Err Unit
  tr : List Ev
  st : St
deriving Repr

/-- The `err:` label: release the left-over tree walk pin when `next_ref`
is not null (`WT_TRET(__wt_page_release(...))`: the first error is kept,
the release result cannot replace an already-set error), then re-enable
eviction when this call disabled it. -/
def errCleanup (env : Env) (e : Err) (cursor : Option Ref)
    (evictionEnabled : Bool) (st : St) : CleanupOut :=
  let tr1 : List Ev :=
    match cursor with
    | some r =>
        match env.pageRelease r with
        | Except.ok _ => [Ev.pageRelease r.id]
        | Except.error _ => [Ev.pageRelease r.id]
    | none => []
  if evictionEnabled then
    { ret := Except.error e, tr := tr1 ++ [Ev.exclusiveOff],
      st := { st with noEviction := false } }
  else
    { ret := Except.error e, tr := tr1, st := st }

/-- Pop the next walk outcome from the script; an exhausted script reports
end-of-tree. -/
def takeWalk : List WalkOut → WalkOut × List WalkOut
  | [] => (endOfTree, [])
  | w :: rest => (w, rest)

/-- The whole result of a pass. -/
structure Result where
  ret : Except Err Unit
  tr : List Ev
  pages : List (Nat × Page)
  st : St
deriving Repr

/-- The body of `__wt_evict_file` after the exclusive-access guard: refresh
the oldest transaction id, start the walk, run the loop, and on any error
run the cleanup label; on every exit path re-enable eviction exactly when
this call disabled it (`evictionEnabled` records whether it did). -/
def passBody (env : Env) (syncop : Syncop) (walks : List WalkOut) (st1 : St)
    (evictionEnabled : Bool) : Result :=
  let trA : List Ev := if evictionEnabled then [Ev.exclusiveOn] else []
  let trB := trA ++ [Ev.updateOldest] ++ [Ev.walkAdvance]
  let w0 := (takeWalk walks).1
  let rest := (takeWalk walks).2
  match w0.err with
  | some e =>
      let c := errCleanup env e w0.cursor evictionEnabled st1
      { ret := c.ret, tr := trB ++ c.tr, pages := [], st := c.st }
  | none =>
      let lr := evictLoop env syncop w0.cursor rest st1
      match lr.out with
      | some (e, cursor) =>
          let c := errCleanup env e cursor evictionEnabled lr.st
          { ret := c.ret, tr := trB ++ lr.tr ++ c.tr, pages := lr.pages,
            st := c.st }
      | none =>
          if evictionEnabled then
            { ret := Except.ok (), tr := trB ++ lr.tr ++ [Ev.exclusiveOff],
              pages := lr.pages, st := { lr.st with noEviction := false } }
          else
            { ret := Except.ok (), tr := trB ++ lr.tr, pages := lr.pages,
              st := lr.st }

/-- `__wt_evict_file`: capture whether eviction was enabled at entry,
acquire exclusive access when it was (`WT_RET`: returning immediately on
failure), then run the body of the pass.  Acquire failure is modelled from
the spec as leaving the no-eviction flag as it was (the gate rolls back its
disable when the drain fails). -/
def evictFile (env : Env) (syncop : Syncop) (walks : List WalkOut)
    (st0 : St) : Result :=
  let evictionEnabled := ! st0.noEviction
  if evictionEnabled then
    match env.exclusiveOn with
    | Except.error e =>
        { ret := Except.error e, tr := [], pages := [], st := st0 }
    | Except.ok _ =>
        passBody env syncop walks { st0 with noEviction := true } true
  else
    passBody env syncop walks st0 false

/-- Event classifier: reconciliation calls. -/
def isRecEv : Ev → Bool
  | Ev.reconcile _ _ => true
  | _ => false

/-- Event classifier: walk-advance calls. -/
def isWalkEv : Ev → Bool
  | Ev.walkAdvance => true
  | _ => false

/-- Event classifier: page-disposition actions (explicit eviction, dirty
clearing, the force flag writes, the discard). -/
def isDispEv : Ev → Bool
  | Ev.evict _ => true
  | Ev.cleanUpdate _ => true
  | Ev.dirtyDecr _ => true
  | Ev.setForce => true
  | Ev.clrForce => true
  | _ => false

/-- Event classifier: the dirty-accounting decrement for page `i`. -/
def isDirtyDecr (i : Nat) : Ev → Bool
  | Ev.dirtyDecr j => j == i
  | _ => false

/-- Event classifier: the oldest-transaction watermark refresh. -/
def isOldestEv : Ev → Bool
  | Ev.updateOldest => true
  | _ => false

/-- A sample environment for concrete runs: all collaborators succeed and
no transaction id is visible to all active transactions. -/
def envNoVis : Env where
  exclusiveOn := Except.ok ()
  reconcile := fun r => Except.ok r.page
  evict := fun _ => Except.ok ()
  visibleAll := fun _ => false
  pageRelease := fun _ => Except.ok ()

/-- A sample environment whose reconciliation fails. -/
def envRecFail : Env where
  exclusiveOn := Except.ok ()
  reconcile := fun _ => Except.error (Err.ext 5)
  evict := fun _ => Except.ok ()
  visibleAll := fun _ => true
  pageRelease := fun _ => Except.ok ()

/-- A sample environment whose exclusive-access acquisition fails. -/
def envAcqFail : Env where
  exclusiveOn := Except.error (Err.ext 16)
  reconcile := fun r => Except.ok r.page
  evict := fun _ => Except.ok ()
  visibleAll := fun _ => true
  pageRelease := fun _ => Except.ok ()

/-- A sample modify record: write generation 5, last reconciled transaction
id 10, not marked empty. -/
def mDirty : Modify := { write_gen := 5, rec_max_txn := 10, rec_empty := false }

/-- A sample dirty page carrying the sample modify record. -/
def pgDirty : Page := { modify := some mDirty }

/-- A sample non-root ref addressing the dirty page. -/
def refDirty : Ref := { id := 2, isRoot := false, page := pgDirty }

/-- A sample root ref whose modify record is marked empty. -/
def refRootEmpty : Ref :=
  { id := 0, isRoot := true,
    page := { modify := some { write_gen := 3, rec_max_txn := 4, rec_empty := true } } }

/-- A sample starting state: eviction enabled, force flag clear, one dirty
page accounted. -/
def stStart : St := { noEviction := false, discardForce := false, cacheDirty := 1 }

/-- A sample starting state with eviction already disabled at entry. -/
def stNoEv : St := { noEviction := true, discardForce := false, cacheDirty := 1 }

end WtEvict



namespace WtEvict

theorem discardStep_noEviction (env : Env) (syncop : Syncop) (ref : Ref)
    (cursor : Option Ref) (page : Page) (st : St) (tr1 : List Ev) :
    (discardStep env syncop ref cursor page st tr1).st.noEviction = st.noEviction := by
  unfold discardStep
  by_cases hm : pageIsModified page = true <;>
    simp [hm] <;> split <;> simp <;> split <;> simp

theorem handlePage_noEviction (env : Env) (syncop : Syncop) (ref : Ref)
    (w : WalkOut) (st : St) :
    (handlePage env syncop ref w st).st.noEviction = st.noEviction := by
  unfold handlePage
  cases hr : reconcileStep env syncop ref with
  | error e => rfl
  | ok pt =>
    obtain ⟨page, tr0⟩ := pt
    cases hw : w.err with
    | some e => rfl
    | none =>
      cases syncop with
      | close =>
        dsimp only
        split
        · cases he : env.evict ref <;> rfl
        · rfl
      | discard => exact discardStep_noEviction ..
      | discardForce => exact discardStep_noEviction ..
      | other => rfl


theorem discardStep_discardForce (env : Env) (syncop : Syncop) (ref : Ref)
    (cursor : Option Ref) (page : Page) (st : St) (tr1 : List Ev)
    (h : st.discardForce = false) :
    (discardStep env syncop ref cursor page st tr1).st.discardForce = false := by
  unfold discardStep
  by_cases hm : pageIsModified page = true <;>
    simp [hm, h] <;> split <;> simp [h]

theorem handlePage_discardForce (env : Env) (syncop : Syncop) (ref : Ref)
    (w : WalkOut) (st : St) (h : st.discardForce = false) :
    (handlePage env syncop ref w st).st.discardForce = false := by
  unfold handlePage
  cases hr : reconcileStep env syncop ref with
  | error e => exact h
  | ok pt =>
    obtain ⟨page, tr0⟩ := pt
    cases hw : w.err with
    | some e => exact h
    | none =>
      cases syncop with
      | close =>
        dsimp only
        split
        · cases he : env.evict ref <;> exact h
        · exact h
      | discard => exact discardStep_discardForce _ _ _ _ _ _ _ h
      | discardForce => exact discardStep_discardForce _ _ _ _ _ _ _ h
      | other => exact h

theorem discardStep_tr_shape (env : Env) (syncop : Syncop) (ref : Ref)
    (cursor : Option Ref) (page : Page) (st : St) (tr1 : List Ev) :
    ∃ suf, (discardStep env syncop ref cursor page st tr1).tr = tr1 ++ suf ∧
      ∀ ev ∈ suf, isDispEv ev = true := by
  unfold discardStep
  by_cases hm : pageIsModified page = true
  · simp only [hm, if_true]
    split
    · exact ⟨[Ev.dirtyDecr ref.id], rfl, by simp [isDispEv]⟩
    · split
      · exact ⟨[Ev.dirtyDecr ref.id, Ev.setForce, Ev.cleanUpdate ref.id, Ev.clrForce],
          by simp, by simp [isDispEv]⟩
      · exact ⟨[Ev.dirtyDecr ref.id, Ev.cleanUpdate ref.id, Ev.clrForce],
          by simp, by simp [isDispEv]⟩
  · simp only [hm, if_false, Bool.false_eq_true]
    split
    · exact ⟨[], by simp, by simp⟩
    · split
      · exact ⟨[Ev.setForce, Ev.cleanUpdate ref.id, Ev.clrForce],
          by simp, by simp [isDispEv]⟩
      · exact ⟨[Ev.cleanUpdate ref.id, Ev.clrForce],
          by simp, by simp [isDispEv]⟩


theorem reconcileStep_ok_tr (env : Env) (syncop : Syncop) (ref : Ref)
    (page : Page) (tr0 : List Ev)
    (h : reconcileStep env syncop ref = Except.ok (page, tr0)) :
    tr0 = [] ∨ tr0 = [Ev.reconcile ref.id true] := by
  unfold reconcileStep at h
  split at h
  · cases he : env.reconcile ref <;> rw [he] at h <;> simp at h
    exact Or.inr h.2.symm
  · simp at h
    exact Or.inl h.2

theorem reconcileStep_not_close (env : Env) (syncop : Syncop) (ref : Ref)
    (h : ¬ syncop = Syncop.close) :
    reconcileStep env syncop ref = Except.ok (ref.page, []) := by
  unfold reconcileStep
  rw [if_neg]
  intro hc
  exact h hc.1

theorem handlePage_tr_events (env : Env) (syncop : Syncop) (ref : Ref)
    (w : WalkOut) (st : St) :
    ∀ ev ∈ (handlePage env syncop ref w st).tr,
      isRecEv ev = true ∨ isWalkEv ev = true ∨ isDispEv ev = true := by
  unfold handlePage
  cases hr : reconcileStep env syncop ref with
  | error e =>
    intro ev h
    simp at h
    simp [h, isRecEv]
  | ok pt =>
    obtain ⟨page, tr0⟩ := pt
    have htr0 : ∀ ev ∈ tr0, isRecEv ev = true := by
      rcases reconcileStep_ok_tr env syncop ref page tr0 hr with h | h <;> simp [h, isRecEv]
    cases hw : w.err with
    | some e =>
      intro ev h
      simp only [List.mem_append, List.mem_singleton] at h
      rcases h with h | rfl
      · exact Or.inl (htr0 _ h)
      · simp [isWalkEv]
    | none =>
      cases syncop with
      | close =>
        dsimp only
        split
        · cases he : env.evict ref <;>
          · intro ev h
            simp only [List.mem_append, List.mem_singleton] at h
            rcases h with (h | rfl) | rfl
            · exact Or.inl (htr0 _ h)
            · simp [isWalkEv]
            · simp [isDispEv]
        · intro ev h
          simp only [List.mem_append, List.mem_singleton] at h
          rcases h with h | rfl
          · exact Or.inl (htr0 _ h)
          · simp [isWalkEv]
      | discard =>
        intro ev h
        obtain ⟨suf, hs, hd⟩ := discardStep_tr_shape env Syncop.discard ref w.cursor page st (tr0 ++ [Ev.walkAdvance])
        rw [hs] at h
        simp only [List.mem_append, List.mem_singleton] at h
        rcases h with (h | rfl) | h
        · exact Or.inl (htr0 _ h)
        · simp [isWalkEv]
        · exact Or.inr (Or.inr (hd _ h))
      | discardForce =>
        intro ev h
        obtain ⟨suf, hs, hd⟩ := discardStep_tr_shape env Syncop.discardForce ref w.cursor page st (tr0 ++ [Ev.walkAdvance])
        rw [hs] at h
        simp only [List.mem_append, List.mem_singleton] at h
        rcases h with (h | rfl) | h
        · exact Or.inl (htr0 _ h)
        · simp [isWalkEv]
        · exact Or.inr (Or.inr (hd _ h))
      | other =>
        intro ev h
        simp only [List.mem_append, List.mem_singleton] at h
        rcases h with h | rfl
        · exact Or.inl (htr0 _ h)
        · simp [isWalkEv]

theorem handlePage_tr_noRec (env : Env) (syncop : Syncop) (ref : Ref)
    (w : WalkOut) (st : St) (hnc : ¬ syncop = Syncop.close) :
    ∀ ev ∈ (handlePage env syncop ref w st).tr,
      isWalkEv ev = true ∨ isDispEv ev = true := by
  intro ev h
  unfold handlePage at h
  rw [reconcileStep_not_close env syncop ref hnc] at h
  cases hw : w.err with
  | some e =>
    rw [hw] at h
    simp at h
    simp [h, isWalkEv]
  | none =>
    rw [hw] at h
    cases syncop with
    | close => exact absurd rfl hnc
    | discard =>
      obtain ⟨suf, hs, hd⟩ := discardStep_tr_shape env Syncop.discard ref w.cursor ref.page st ([] ++ [Ev.walkAdvance])
      rw [hs] at h
      simp only [List.nil_append, List.mem_append, List.mem_singleton] at h
      rcases h with rfl | h
      · simp [isWalkEv]
      · exact Or.inr (hd _ h)
    | discardForce =>
      obtain ⟨suf, hs, hd⟩ := discardStep_tr_shape env Syncop.discardForce ref w.cursor ref.page st ([] ++ [Ev.walkAdvance])
      rw [hs] at h
      simp only [List.nil_append, List.mem_append, List.mem_singleton] at h
      rcases h with rfl | h
      · simp [isWalkEv]
      · exact Or.inr (hd _ h)
    | other =>
      simp at h
      simp [h, isWalkEv]


theorem evictLoop_tr_events (env : Env) (syncop : Syncop) :
    ∀ (walks : List WalkOut) (cursor : Option Ref) (st : St),
      ∀ ev ∈ (evictLoop env syncop cursor walks st).tr,
        isRecEv ev = true ∨ isWalkEv ev = true ∨ isDispEv ev = true := by
  intro walks
  induction walks with
  | nil =>
    intro cursor st ev h
    cases cursor with
    | none => simp [evictLoop] at h
    | some ref =>
      simp only [evictLoop] at h
      cases he : (handlePage env syncop ref endOfTree st).err <;> rw [he] at h <;>
        simp only at h <;> exact handlePage_tr_events env syncop ref endOfTree st ev h
  | cons w rest ih =>
    intro cursor st ev h
    cases cursor with
    | none => simp [evictLoop] at h
    | some ref =>
      simp only [evictLoop] at h
      cases he : (handlePage env syncop ref w st).err <;> rw [he] at h <;> simp only at h
      · rw [List.mem_append] at h
        rcases h with h | h
        · exact handlePage_tr_events env syncop ref w st ev h
        · exact ih _ _ ev h
      · exact handlePage_tr_events env syncop ref w st ev h

theorem evictLoop_noEviction (env : Env) (syncop : Syncop) :
    ∀ (walks : List WalkOut) (cursor : Option Ref) (st : St),
      (evictLoop env syncop cursor walks st).st.noEviction = st.noEviction := by
  intro walks
  induction walks with
  | nil =>
    intro cursor st
    cases cursor with
    | none => simp [evictLoop]
    | some ref =>
      simp only [evictLoop]
      cases he : (handlePage env syncop ref endOfTree st).err <;>
        exact handlePage_noEviction env syncop ref endOfTree st
  | cons w rest ih =>
    intro cursor st
    cases cursor with
    | none => simp [evictLoop]
    | some ref =>
      simp only [evictLoop]
      cases he : (handlePage env syncop ref w st).err
      · dsimp only
        rw [ih]
        exact handlePage_noEviction env syncop ref w st
      · exact handlePage_noEviction env syncop ref w st

theorem evictLoop_discardForce (env : Env) (syncop : Syncop) :
    ∀ (walks : List WalkOut) (cursor : Option Ref) (st : St),
      st.discardForce = false →
      (evictLoop env syncop cursor walks st).st.discardForce = false := by
  intro walks
  induction walks with
  | nil =>
    intro cursor st hf
    cases cursor with
    | none => simpa [evictLoop] using hf
    | some ref =>
      simp only [evictLoop]
      cases he : (handlePage env syncop ref endOfTree st).err <;>
        exact handlePage_discardForce env syncop ref endOfTree st hf
  | cons w rest ih =>
    intro cursor st hf
    cases cursor with
    | none => simpa [evictLoop] using hf
    | some ref =>
      simp only [evictLoop]
      cases he : (handlePage env syncop ref w st).err
      · exact ih _ _ (handlePage_discardForce env syncop ref w st hf)
      · exact handlePage_discardForce env syncop ref w st hf

theorem evictLoop_noRec (env : Env) (syncop : Syncop) (hnc : ¬ syncop = Syncop.close) :
    ∀ (walks : List WalkOut) (cursor : Option Ref) (st : St),
      ∀ ev ∈ (evictLoop env syncop cursor walks st).tr,
        isWalkEv ev = true ∨ isDispEv ev = true := by
  intro walks
  induction walks with
  | nil =>
    intro cursor st ev h
    cases cursor with
    | none => simp [evictLoop] at h
    | some ref =>
      simp only [evictLoop] at h
      cases he : (handlePage env syncop ref endOfTree st).err <;> rw [he] at h <;>
        simp only at h <;> exact handlePage_tr_noRec env syncop ref endOfTree st hnc ev h
  | cons w rest ih =>
    intro cursor st ev h
    cases cursor with
    | none => simp [evictLoop] at h
    | some ref =>
      simp only [evictLoop] at h
      cases he : (handlePage env syncop ref w st).err <;> rw [he] at h <;> simp only at h
      · rw [List.mem_append] at h
        rcases h with h | h
        · exact handlePage_tr_noRec env syncop ref w st hnc ev h
        · exact ih _ _ ev h
      · exact handlePage_tr_noRec env syncop ref w st hnc ev h


theorem handlePage_discard_eq (env : Env) (syncop : Syncop) (ref : Ref)
    (w : WalkOut) (st : St) (hw : w.err = none)
    (hs : syncop = Syncop.discard ∨ syncop = Syncop.discardForce) :
    handlePage env syncop ref w st =
      discardStep env syncop ref w.cursor ref.page st ([] ++ [Ev.walkAdvance]) := by
  rcases hs with rfl | rfl <;>
  · unfold handlePage
    rw [reconcileStep_not_close _ _ _ (by decide)]
    dsimp only
    rw [hw]

/-- Claim C1: for a page visited in Discard mode whose modify record has a
rec_max_txn not visible to all active transactions, the pass does not
discard the page and stops with the retryable EBUSY error; for the same
page in Forced-discard mode the visibility check is skipped and the page
is always discarded with no error. -/
theorem claim1 (env : Env) (ref : Ref) (w : WalkOut) (st : St) (m : Modify)
    (hm : ref.page.modify = some m)
    (hv : env.visibleAll m.rec_max_txn = false)
    (hw : w.err = none) :
    (handlePage env Syncop.discard ref w st).err = some Err.ebusy ∧
    Ev.cleanUpdate ref.id ∉ (handlePage env Syncop.discard ref w st).tr ∧
    (handlePage env Syncop.discardForce ref w st).err = none ∧
    Ev.cleanUpdate ref.id ∈ (handlePage env Syncop.discardForce ref w st).tr := by
  rw [handlePage_discard_eq env Syncop.discard ref w st hw (Or.inl rfl),
      handlePage_discard_eq env Syncop.discardForce ref w st hw (Or.inr rfl)]
  unfold discardStep
  by_cases hmod : pageIsModified ref.page = true <;>
    simp [hmod, zeroWriteGen, recMaxTxn, hm, hv]


theorem errCleanup_ret (env : Env) (e : Err) (cursor : Option Ref)
    (en : Bool) (st : St) : (errCleanup env e cursor en st).ret = Except.error e := by
  unfold errCleanup
  cases cursor with
  | none => cases en <;> simp
  | some r => cases hpr : env.pageRelease r <;> cases en <;> simp [hpr]

theorem errCleanup_st (env : Env) (e : Err) (cursor : Option Ref)
    (en : Bool) (st : St) :
    (errCleanup env e cursor en st).st =
      if en then { st with noEviction := false } else st := by
  unfold errCleanup
  cases cursor with
  | none => cases en <;> simp
  | some r => cases hpr : env.pageRelease r <;> cases en <;> simp [hpr]

theorem errCleanup_tr (env : Env) (e : Err) (cursor : Option Ref)
    (en : Bool) (st : St) :
    (errCleanup env e cursor en st).tr =
      (match cursor with
       | some r => [Ev.pageRelease r.id]
       | none => []) ++ (if en then [Ev.exclusiveOff] else []) := by
  unfold errCleanup
  cases cursor with
  | none => cases en <;> simp
  | some r => cases hpr : env.pageRelease r <;> cases en <;> simp [hpr]

theorem passBody_walk0_err (env : Env) (syncop : Syncop) (walks : List WalkOut)
    (st1 : St) (en : Bool) (e : Err)
    (hw0 : (takeWalk walks).1.err = some e) :
    passBody env syncop walks st1 en =
      { ret := (errCleanup env e (takeWalk walks).1.cursor en st1).ret,
        tr := ((if en then [Ev.exclusiveOn] else []) ++ [Ev.updateOldest] ++
          [Ev.walkAdvance]) ++ (errCleanup env e (takeWalk walks).1.cursor en st1).tr,
        pages := [],
        st := (errCleanup env e (takeWalk walks).1.cursor en st1).st } := by
  simp only [passBody]
  rw [hw0]

theorem passBody_loop_err (env : Env) (syncop : Syncop) (walks : List WalkOut)
    (st1 : St) (en : Bool) (e : Err) (c : Option Ref)
    (hw0 : (takeWalk walks).1.err = none)
    (hlr : (evictLoop env syncop (takeWalk walks).1.cursor (takeWalk walks).2 st1).out
      = some (e, c)) :
    passBody env syncop walks st1 en =
      { ret := (errCleanup env e c en
          (evictLoop env syncop (takeWalk walks).1.cursor (takeWalk walks).2 st1).st).ret,
        tr := ((if en then [Ev.exclusiveOn] else []) ++ [Ev.updateOldest] ++
          [Ev.walkAdvance]) ++
          (evictLoop env syncop (takeWalk walks).1.cursor (takeWalk walks).2 st1).tr ++
          (errCleanup env e c en
            (evictLoop env syncop (takeWalk walks).1.cursor (takeWalk walks).2 st1).st).tr,
        pages := (evictLoop env syncop (takeWalk walks).1.cursor (takeWalk walks).2 st1).pages,
        st := (errCleanup env e c en
          (evictLoop env syncop (takeWalk walks).1.cursor (takeWalk walks).2 st1).st).st } := by
  simp only [passBody]
  rw [hw0]
  dsimp only
  rw [hlr]

theorem passBody_success (env : Env) (syncop : Syncop) (walks : List WalkOut)
    (st1 : St) (en : Bool)
    (hw0 : (takeWalk walks).1.err = none)
    (hlr : (evictLoop env syncop (takeWalk walks).1.cursor (takeWalk walks).2 st1).out
      = none) :
    passBody env syncop walks st1 en =
      { ret := Except.ok (),
        tr := ((if en then [Ev.exclusiveOn] else []) ++ [Ev.updateOldest] ++
          [Ev.walkAdvance]) ++
          (evictLoop env syncop (takeWalk walks).1.cursor (takeWalk walks).2 st1).tr ++
          (if en then [Ev.exclusiveOff] else []),
        pages := (evictLoop env syncop (takeWalk walks).1.cursor (takeWalk walks).2 st1).pages,
        st := if en then
            { (evictLoop env syncop (takeWalk walks).1.cursor (takeWalk walks).2 st1).st
              with noEviction := false }
          else (evictLoop env syncop (takeWalk walks).1.cursor (takeWalk walks).2 st1).st } := by
  simp only [passBody]
  rw [hw0]
  dsimp only
  rw [hlr]
  cases en <;> simp


theorem evictFile_noEv (env : Env) (syncop : Syncop) (walks : List WalkOut)
    (st0 : St) (h : st0.noEviction = true) :
    evictFile env syncop walks st0 = passBody env syncop walks st0 false := by
  unfold evictFile
  simp [h]

theorem evictFile_acq_ok (env : Env) (syncop : Syncop) (walks : List WalkOut)
    (st0 : St) (h : st0.noEviction = false) (hx : env.exclusiveOn = Except.ok ()) :
    evictFile env syncop walks st0 =
      passBody env syncop walks { st0 with noEviction := true } true := by
  unfold evictFile
  simp [h, hx]

theorem evictFile_acq_fail (env : Env) (syncop : Syncop) (walks : List WalkOut)
    (st0 : St) (e : Err) (h : st0.noEviction = false)
    (hx : env.exclusiveOn = Except.error e) :
    evictFile env syncop walks st0 =
      { ret := Except.error e, tr := [], pages := [], st := st0 } := by
  unfold evictFile
  simp [h, hx]

theorem passBody_noEviction (env : Env) (syncop : Syncop) (walks : List WalkOut)
    (st1 : St) (en : Bool) :
    (passBody env syncop walks st1 en).st.noEviction =
      if en then false else st1.noEviction := by
  cases hw0 : (takeWalk walks).1.err with
  | some e =>
    rw [passBody_walk0_err env syncop walks st1 en e hw0]
    dsimp only
    rw [errCleanup_st]
    cases en <;> simp
  | none =>
    cases hlr : (evictLoop env syncop (takeWalk walks).1.cursor (takeWalk walks).2 st1).out with
    | some p =>
      obtain ⟨e, c⟩ := p
      rw [passBody_loop_err env syncop walks st1 en e c hw0 hlr]
      dsimp only
      rw [errCleanup_st]
      cases en <;> simp [evictLoop_noEviction]
    | none =>
      rw [passBody_success env syncop walks st1 en hw0 hlr]
      cases en <;> simp [evictLoop_noEviction]

theorem evictLoop_no_excl (env : Env) (syncop : Syncop) (walks : List WalkOut)
    (cursor : Option Ref) (st : St) :
    Ev.exclusiveOn ∉ (evictLoop env syncop cursor walks st).tr ∧
    Ev.exclusiveOff ∉ (evictLoop env syncop cursor walks st).tr := by
  constructor <;>
  · intro h
    have := evictLoop_tr_events env syncop walks cursor st _ h
    simp [isRecEv, isWalkEv, isDispEv] at this

theorem passBody_excl_off (env : Env) (syncop : Syncop) (walks : List WalkOut)
    (st1 : St) :
    Ev.exclusiveOn ∉ (passBody env syncop walks st1 false).tr ∧
    Ev.exclusiveOff ∉ (passBody env syncop walks st1 false).tr := by
  cases hw0 : (takeWalk walks).1.err with
  | some e =>
    rw [passBody_walk0_err env syncop walks st1 false e hw0]
    dsimp only
    rw [errCleanup_tr]
    cases hc : (takeWalk walks).1.cursor <;> simp
  | none =>
    cases hlr : (evictLoop env syncop (takeWalk walks).1.cursor (takeWalk walks).2 st1).out with
    | some p =>
      obtain ⟨e, c⟩ := p
      rw [passBody_loop_err env syncop walks st1 false e c hw0 hlr]
      dsimp only
      rw [errCleanup_tr]
      have hne := evictLoop_no_excl env syncop (takeWalk walks).2 (takeWalk walks).1.cursor st1
      cases hc : c <;> simp [hne.1, hne.2]
    | none =>
      rw [passBody_success env syncop walks st1 false hw0 hlr]
      have hne := evictLoop_no_excl env syncop (takeWalk walks).2 (takeWalk walks).1.cursor st1
      simp [hne.1, hne.2]

theorem passBody_excl_on (env : Env) (syncop : Syncop) (walks : List WalkOut)
    (st1 : St) :
    Ev.exclusiveOn ∈ (passBody env syncop walks st1 true).tr ∧
    Ev.exclusiveOff ∈ (passBody env syncop walks st1 true).tr := by
  cases hw0 : (takeWalk walks).1.err with
  | some e =>
    rw [passBody_walk0_err env syncop walks st1 true e hw0]
    dsimp only
    rw [errCleanup_tr]
    cases hc : (takeWalk walks).1.cursor <;> simp
  | none =>
    cases hlr : (evictLoop env syncop (takeWalk walks).1.cursor (takeWalk walks).2 st1).out with
    | some p =>
      obtain ⟨e, c⟩ := p
      rw [passBody_loop_err env syncop walks st1 true e c hw0 hlr]
      dsimp only
      rw [errCleanup_tr]
      cases hc : c <;> simp
    | none =>
      rw [passBody_success env syncop walks st1 true hw0 hlr]
      simp


/-- Claim C7: the pass disables background eviction only when eviction was
enabled at entry and re-enables it on exit only in that case; when
eviction was already disabled at entry the flag is untouched; when the
exclusive-access acquisition fails the error is returned immediately with
no page visited. -/
theorem claim7 (env : Env) (syncop : Syncop) (walks : List WalkOut)
    (st0 : St) (e : Err) :
    (st0.noEviction = true →
      (evictFile env syncop walks st0).st.noEviction = true ∧
      Ev.exclusiveOn ∉ (evictFile env syncop walks st0).tr ∧
      Ev.exclusiveOff ∉ (evictFile env syncop walks st0).tr) ∧
    (st0.noEviction = false → env.exclusiveOn = Except.ok () →
      Ev.exclusiveOn ∈ (evictFile env syncop walks st0).tr ∧
      Ev.exclusiveOff ∈ (evictFile env syncop walks st0).tr ∧
      (evictFile env syncop walks st0).st.noEviction = false) ∧
    (st0.noEviction = false → env.exclusiveOn = Except.error e →
      evictFile env syncop walks st0 =
        { ret := Except.error e, tr := [], pages := [], st := st0 }) := by
  refine ⟨?_, ?_, ?_⟩
  · intro h
    rw [evictFile_noEv env syncop walks st0 h]
    refine ⟨?_, (passBody_excl_off env syncop walks st0).1,
      (passBody_excl_off env syncop walks st0).2⟩
    rw [passBody_noEviction]
    simp [h]
  · intro h hx
    rw [evictFile_acq_ok env syncop walks st0 h hx]
    refine ⟨(passBody_excl_on env syncop walks _).1,
      (passBody_excl_on env syncop walks _).2, ?_⟩
    rw [passBody_noEviction]
    simp
  · intro h hx
    exact evictFile_acq_fail env syncop walks st0 e h hx

/-- Claim C6: a failing page disposition stops the loop at once with that
error; the error label releases the pin on the page the cursor points at
when one exists, re-enables background eviction iff this call disabled
it, and returns the first error encountered. -/
theorem claim6 (env : Env) (syncop : Syncop) (ref : Ref) (w : WalkOut)
    (rest : List WalkOut) (st : St) (e : Err) (cursor : Option Ref) (en : Bool)
    (hp : (handlePage env syncop ref w st).err = some e) :
    (evictLoop env syncop (some ref) (w :: rest) st).out =
      some (e, (handlePage env syncop ref w st).cursor) ∧
    (errCleanup env e cursor en st).ret = Except.error e ∧
    (∀ r, cursor = some r →
      Ev.pageRelease r.id ∈ (errCleanup env e cursor en st).tr) ∧
    (en = true → Ev.exclusiveOff ∈ (errCleanup env e cursor en st).tr ∧
      (errCleanup env e cursor en st).st.noEviction = false) ∧
    (en = false → (errCleanup env e cursor en st).st = st ∧
      Ev.exclusiveOff ∉ (errCleanup env e cursor en st).tr) ∧
    (∀ walks st1, (takeWalk walks).1.err = none →
      (evictLoop env syncop (takeWalk walks).1.cursor (takeWalk walks).2 st1).out
        = some (e, cursor) →
      (passBody env syncop walks st1 en).ret = Except.error e ∧
      (∀ r, cursor = some r →
        Ev.pageRelease r.id ∈ (passBody env syncop walks st1 en).tr)) := by
  refine ⟨?_, errCleanup_ret env e cursor en st, ?_, ?_, ?_, ?_⟩
  · simp only [evictLoop]
    rw [hp]
  · intro r hr
    subst hr
    rw [errCleanup_tr]
    simp
  · intro hen
    subst hen
    rw [errCleanup_tr, errCleanup_st]
    cases cursor <;> simp
  · intro hen
    subst hen
    rw [errCleanup_tr, errCleanup_st]
    cases cursor <;> simp
  · intro walks st1 hw0 hlr
    rw [passBody_loop_err env syncop walks st1 en e cursor hw0 hlr]
    refine ⟨errCleanup_ret env e cursor en _, ?_⟩
    intro r hr
    subst hr
    rw [errCleanup_tr]
    simp

/-- Claim C9: when the initial walk yields no page the pass returns
success for every mode, refreshes the oldest-transaction watermark
exactly once, performs no reconciliation, eviction, discard or dirty
decrement, and restores background eviction when this call disabled it. -/
theorem claim9 (env : Env) (syncop : Syncop) (walks : List WalkOut) (st0 : St)
    (hw : (takeWalk walks).1 = endOfTree)
    (hx : st0.noEviction = false → env.exclusiveOn = Except.ok ()) :
    (evictFile env syncop walks st0).ret = Except.ok () ∧
    (evictFile env syncop walks st0).pages = [] ∧
    List.countP isOldestEv (evictFile env syncop walks st0).tr = 1 ∧
    (∀ i b, Ev.reconcile i b ∉ (evictFile env syncop walks st0).tr) ∧
    (∀ i, Ev.evict i ∉ (evictFile env syncop walks st0).tr) ∧
    (∀ i, Ev.cleanUpdate i ∉ (evictFile env syncop walks st0).tr) ∧
    (∀ i, Ev.dirtyDecr i ∉ (evictFile env syncop walks st0).tr) ∧
    (st0.noEviction = false → Ev.exclusiveOff ∈ (evictFile env syncop walks st0).tr ∧
      (evictFile env syncop walks st0).st.noEviction = false) ∧
    (st0.noEviction = true → (evictFile env syncop walks st0).st = st0) := by
  have hwe : (takeWalk walks).1.err = none := by rw [hw]; rfl
  have hwc : (takeWalk walks).1.cursor = none := by rw [hw]; rfl
  by_cases hne : st0.noEviction = true
  · rw [evictFile_noEv env syncop walks st0 hne]
    rw [passBody_success env syncop walks st0 false hwe (by rw [hwc]; simp [evictLoop])]
    rw [hwc]
    simp [evictLoop, isOldestEv, hne]
  · have hne2 : st0.noEviction = false := by simpa using hne
    rw [evictFile_acq_ok env syncop walks st0 hne2 (hx hne2)]
    rw [passBody_success env syncop walks _ true hwe (by rw [hwc]; simp [evictLoop])]
    rw [hwc]
    simp [evictLoop, isOldestEv, hne2]


theorem isDispEv_not (ev : Ev) (h : isDispEv ev = true) :
    isWalkEv ev = false ∧ isRecEv ev = false := by
  cases ev <;> simp_all [isDispEv, isWalkEv, isRecEv]

theorem pageIsModified_zero (p : Page) :
    pageIsModified (zeroWriteGen p) = false := by
  unfold pageIsModified zeroWriteGen
  cases p.modify <;> simp

theorem handlePage_shape (env : Env) (syncop : Syncop) (ref : Ref)
    (w : WalkOut) (st : St) :
    (∃ e, reconcileStep env syncop ref = Except.error e ∧
      (handlePage env syncop ref w st).tr = [Ev.reconcile ref.id true]) ∨
    (∃ page2 tr0 suf, reconcileStep env syncop ref = Except.ok (page2, tr0) ∧
      (handlePage env syncop ref w st).tr = tr0 ++ Ev.walkAdvance :: suf ∧
      ∀ ev ∈ suf, isDispEv ev = true) := by
  cases hr : reconcileStep env syncop ref with
  | error e =>
    left
    refine ⟨e, rfl, ?_⟩
    unfold handlePage
    rw [hr]
  | ok pt =>
    obtain ⟨page, tr0⟩ := pt
    right
    have key : ∃ suf, (handlePage env syncop ref w st).tr =
        tr0 ++ Ev.walkAdvance :: suf ∧ ∀ ev ∈ suf, isDispEv ev = true := by
      unfold handlePage
      rw [hr]
      dsimp only
      cases hwe : w.err with
      | some e => exact ⟨[], by simp, by simp⟩
      | none =>
        cases syncop with
        | close =>
          dsimp only
          split
          · cases env.evict ref <;>
              exact ⟨[Ev.evict ref.id], by simp, by simp [isDispEv]⟩
          · exact ⟨[], by simp, by simp⟩
        | discard =>
          obtain ⟨suf, hs, hd⟩ := discardStep_tr_shape env Syncop.discard ref
            w.cursor page st (tr0 ++ [Ev.walkAdvance])
          exact ⟨suf, by rw [hs]; simp, hd⟩
        | discardForce =>
          obtain ⟨suf, hs, hd⟩ := discardStep_tr_shape env Syncop.discardForce ref
            w.cursor page st (tr0 ++ [Ev.walkAdvance])
          exact ⟨suf, by rw [hs]; simp, hd⟩
        | other => exact ⟨[], by simp, by simp⟩
    obtain ⟨suf, h1, h2⟩ := key
    exact ⟨page, tr0, suf, rfl, h1, h2⟩


/-- Claim C5: for every visited page the walk cursor is advanced before
the page is acted on by its disposition (only the reconciliation of the
current page precedes the advance), there is exactly one advance per
page, and the handling of the next page starts only after the disposition
of the current page is fully applied. -/
theorem claim5 (env : Env) (syncop : Syncop) (ref : Ref) (w : WalkOut)
    (st : St) (rest : List WalkOut) :
    (∀ ev ∈ (handlePage env syncop ref w st).tr.takeWhile
        (fun x => ! isWalkEv x), isRecEv ev = true) ∧
    (∀ page2 tr0, reconcileStep env syncop ref = Except.ok (page2, tr0) →
      List.countP isWalkEv (handlePage env syncop ref w st).tr = 1) ∧
    (∀ ev ∈ (handlePage env syncop ref w st).tr.dropWhile
        (fun x => ! isWalkEv x), isRecEv ev = false) ∧
    ((handlePage env syncop ref w st).err = none →
      evictLoop env syncop (some ref) (w :: rest) st =
        { out := (evictLoop env syncop (handlePage env syncop ref w st).cursor
            rest (handlePage env syncop ref w st).st).out,
          st := (evictLoop env syncop (handlePage env syncop ref w st).cursor
            rest (handlePage env syncop ref w st).st).st,
          tr := (handlePage env syncop ref w st).tr ++
            (evictLoop env syncop (handlePage env syncop ref w st).cursor
              rest (handlePage env syncop ref w st).st).tr,
          pages := (handlePage env syncop ref w st).finalPage ::
            (evictLoop env syncop (handlePage env syncop ref w st).cursor
              rest (handlePage env syncop ref w st).st).pages }) := by
  refine ⟨?_, ?_, ?_, ?_⟩
  · rcases handlePage_shape env syncop ref w st with ⟨e, hr, htr⟩ |
      ⟨page2, tr0, suf, hr, htr, hdisp⟩
    · rw [htr]
      simp [List.takeWhile_cons, isWalkEv, isRecEv]
    · rw [htr]
      rcases reconcileStep_ok_tr env syncop ref page2 tr0 hr with h0 | h0 <;> subst h0
      · simp [List.takeWhile_cons, isWalkEv]
      · simp [List.takeWhile_cons, isWalkEv, isRecEv]
  · intro page2 tr0 hr2
    rcases handlePage_shape env syncop ref w st with ⟨e, hr, htr⟩ |
      ⟨page3, tr3, suf, hr, htr, hdisp⟩
    · rw [hr] at hr2
      exact absurd hr2 (by simp)
    · rw [htr]
      have hsuf : List.countP isWalkEv suf = 0 := by
        rw [List.countP_eq_zero]
        intro ev hev
        simp [(isDispEv_not ev (hdisp ev hev)).1]
      rcases reconcileStep_ok_tr env syncop ref page3 tr3 hr with h0 | h0 <;> subst h0 <;>
        simp [List.countP_cons, List.countP_append, isWalkEv, hsuf]
  · rcases handlePage_shape env syncop ref w st with ⟨e, hr, htr⟩ |
      ⟨page2, tr0, suf, hr, htr, hdisp⟩
    · rw [htr]
      simp [List.dropWhile_cons, isWalkEv]
    · rw [htr]
      rcases reconcileStep_ok_tr env syncop ref page2 tr0 hr with h0 | h0 <;> subst h0 <;>
      · simp only [List.nil_append, List.singleton_append, List.dropWhile_cons]
        simp [isWalkEv, isRecEv]
        intro ev hev
        exact (isDispEv_not ev (hdisp ev hev)).2
  · intro hnone
    simp only [evictLoop]
    rw [hnone]

/-- Claim C2, amended: when Discard mode stops with EBUSY on a dirty page
whose rec_max_txn is not visible to all, the page is not discarded and
stays resident, but its dirty state has already been cleared before the
error is reported: the write generation is reset to zero, the aggregate
dirty accounting is decremented once, and the page no longer counts as
modified. -/
theorem claim2 (env : Env) (ref : Ref) (w : WalkOut) (st : St) (m : Modify)
    (hm : ref.page.modify = some m) (hd : m.write_gen ≠ 0)
    (hv : env.visibleAll m.rec_max_txn = false) (hw : w.err = none) :
    (handlePage env Syncop.discard ref w st).err = some Err.ebusy ∧
    Ev.cleanUpdate ref.id ∉ (handlePage env Syncop.discard ref w st).tr ∧
    (∀ i, Ev.evict i ∉ (handlePage env Syncop.discard ref w st).tr) ∧
    (handlePage env Syncop.discard ref w st).finalPage.2.modify =
      some { m with write_gen := 0 } ∧
    (handlePage env Syncop.discard ref w st).st.cacheDirty = st.cacheDirty - 1 ∧
    pageIsModified (handlePage env Syncop.discard ref w st).finalPage.2 = false := by
  rw [handlePage_discard_eq env Syncop.discard ref w st hw (Or.inl rfl)]
  have hmod : pageIsModified ref.page = true := by
    simp [pageIsModified, hm, hd]
  unfold discardStep
  simp [hmod, zeroWriteGen, recMaxTxn, hm, hv, pageIsModified_zero]
  simp [pageIsModified]

/-- Claim C2, counterexample to the claim as stated: on a concrete dirty
page whose update is not visible to all, Discard mode returns EBUSY, yet
the dirty state is not unchanged - the page stops counting as modified and
the aggregate dirty accounting drops from 1 to 0. -/
theorem claim2_cex :
    (handlePage envNoVis Syncop.discard refDirty endOfTree stStart).err =
      some Err.ebusy ∧
    pageIsModified refDirty.page = true ∧
    stStart.cacheDirty = 1 ∧
    pageIsModified
      (handlePage envNoVis Syncop.discard refDirty endOfTree stStart).finalPage.2
      = false ∧
    (handlePage envNoVis Syncop.discard refDirty endOfTree stStart).st.cacheDirty
      = 0 := by
  decide

/-- Claim C3: in Flush-and-close mode a visited page is explicitly evicted
iff it is the root, or has no modify record, or its modify record is not
marked empty; otherwise it is left resident for parent-merge with no
explicit eviction; in particular the root is never merge-deferred. -/
theorem claim3 (env : Env) (ref : Ref) (w : WalkOut) (st : St)
    (page2 : Page) (tr0 : List Ev)
    (hr : reconcileStep env Syncop.close ref = Except.ok (page2, tr0))
    (hw : w.err = none) :
    ((Ev.evict ref.id ∈ (handlePage env Syncop.close ref w st).tr) ↔
      (ref.isRoot = true ∨ page2.modify = none ∨ pmRecEmpty page2 = false)) ∧
    (ref.isRoot = true → Ev.evict ref.id ∈ (handlePage env Syncop.close ref w st).tr) ∧
    (¬ (ref.isRoot = true ∨ page2.modify = none ∨ pmRecEmpty page2 = false) →
      (handlePage env Syncop.close ref w st).err = none ∧
      (∀ i, Ev.evict i ∉ (handlePage env Syncop.close ref w st).tr) ∧
      Ev.cleanUpdate ref.id ∉ (handlePage env Syncop.close ref w st).tr) := by
  have htr0 := reconcileStep_ok_tr env Syncop.close ref page2 tr0 hr
  unfold handlePage
  rw [hr]
  dsimp only
  rw [hw]
  dsimp only
  split
  · cases env.evict ref <;>
    · constructor
      · simp_all
      · refine ⟨fun _ => by simp, fun hc => absurd (by assumption) hc⟩
  · constructor
    · rcases htr0 with h0 | h0 <;> subst h0 <;> simp_all
    · refine ⟨fun hroot => by simp_all, fun _ => ⟨rfl, ?_, ?_⟩⟩
      · intro i
        rcases htr0 with h0 | h0 <;> subst h0 <;> simp
      · rcases htr0 with h0 | h0 <;> subst h0 <;> simp

/-- Claim C8: in Discard and Forced-discard modes the aggregate dirty
accounting is decremented exactly once iff the page is modified at visit
time, the write generation is zeroed in the same step, and the page never
counts as modified afterwards, so the decrement cannot be repeated for
the same transition. -/
theorem claim8 (env : Env) (syncop : Syncop) (ref : Ref) (w : WalkOut) (st : St)
    (hs : syncop = Syncop.discard ∨ syncop = Syncop.discardForce)
    (hw : w.err = none) :
    List.countP (isDirtyDecr ref.id) (handlePage env syncop ref w st).tr =
      (if pageIsModified ref.page then 1 else 0) ∧
    (handlePage env syncop ref w st).st.cacheDirty =
      st.cacheDirty - (if pageIsModified ref.page then 1 else 0) ∧
    (pageIsModified ref.page = true →
      (handlePage env syncop ref w st).finalPage.2 = zeroWriteGen ref.page) ∧
    pageIsModified (handlePage env syncop ref w st).finalPage.2 = false := by
  rw [handlePage_discard_eq env syncop ref w st hw hs]
  unfold discardStep
  by_cases hmod : pageIsModified ref.page = true <;>
    simp only [hmod, ite_true, ite_false, Bool.false_eq_true, if_true, if_false]
  · split
    · simp [List.countP_cons, List.countP_append, isDirtyDecr, pageIsModified_zero]
    · split <;>
        simp [List.countP_cons, List.countP_append, isDirtyDecr, pageIsModified_zero]
  · have : pageIsModified ref.page = false := by simpa using hmod
    split
    · simp_all [List.countP_cons, List.countP_append, isDirtyDecr]
    · split <;> simp_all [List.countP_cons, List.countP_append, isDirtyDecr]


theorem passBody_noRec (env : Env) (syncop : Syncop) (walks : List WalkOut)
    (st1 : St) (en : Bool) (hnc : ¬ syncop = Syncop.close) :
    ∀ i b, Ev.reconcile i b ∉ (passBody env syncop walks st1 en).tr := by
  intro i b h
  cases hw0 : (takeWalk walks).1.err with
  | some e =>
    rw [passBody_walk0_err env syncop walks st1 en e hw0] at h
    dsimp only at h
    rw [errCleanup_tr] at h
    cases hc : (takeWalk walks).1.cursor <;> rw [hc] at h <;>
      cases en <;> simp at h
  | none =>
    cases hlr : (evictLoop env syncop (takeWalk walks).1.cursor
        (takeWalk walks).2 st1).out with
    | some p =>
      obtain ⟨e, c⟩ := p
      rw [passBody_loop_err env syncop walks st1 en e c hw0 hlr] at h
      dsimp only at h
      rw [errCleanup_tr] at h
      simp only [List.mem_append] at h
      rcases h with ((h | h) | h) | h
      · cases en <;> simp at h
      · simp at h
      · have := evictLoop_noRec env syncop hnc (takeWalk walks).2
          (takeWalk walks).1.cursor st1 _ h
        simp [isWalkEv, isDispEv] at this
      · cases hc : c <;> rw [hc] at h <;> cases en <;> simp at h
    | none =>
      rw [passBody_success env syncop walks st1 en hw0 hlr] at h
      dsimp only at h
      simp only [List.mem_append] at h
      rcases h with ((h | h) | h) | h
      · cases en <;> simp at h
      · simp at h
      · have := evictLoop_noRec env syncop hnc (takeWalk walks).2
          (takeWalk walks).1.cursor st1 _ h
        simp [isWalkEv, isDispEv] at this
      · cases en <;> simp at h

theorem evictFile_noRec (env : Env) (syncop : Syncop) (walks : List WalkOut)
    (st2 : St) (hnc : ¬ syncop = Syncop.close) :
    ∀ i b, Ev.reconcile i b ∉ (evictFile env syncop walks st2).tr := by
  intro i b h
  by_cases hne : st2.noEviction = true
  · rw [evictFile_noEv env syncop walks st2 hne] at h
    exact passBody_noRec env syncop walks st2 false hnc i b h
  · have hne2 : st2.noEviction = false := by simpa using hne
    cases hx : env.exclusiveOn with
    | ok u =>
      cases u
      rw [evictFile_acq_ok env syncop walks st2 hne2 hx] at h
      exact passBody_noRec env syncop walks _ true hnc i b h
    | error e =>
      rw [evictFile_acq_fail env syncop walks st2 e hne2 hx] at h
      simp at h

/-- Claim C4: in Flush-and-close mode every dirty visited page is
reconciled exactly once, with the evicting hint, before any disposition;
a reconciliation error aborts the pass at once with that error and no
further page is visited; in Discard and Forced-discard modes
reconciliation is never invoked. -/
theorem claim4 (env : Env) (ref : Ref) (w : WalkOut) (st : St)
    (rest : List WalkOut) :
    (∀ syncop, ¬ syncop = Syncop.close →
      ∀ walks st2 i b, Ev.reconcile i b ∉ (evictFile env syncop walks st2).tr) ∧
    (pageIsModified ref.page = true →
      (∀ page2, env.reconcile ref = Except.ok page2 →
        ∃ tl, (handlePage env Syncop.close ref w st).tr =
          Ev.reconcile ref.id true :: tl ∧ ∀ i b, Ev.reconcile i b ∉ tl) ∧
      (∀ e, env.reconcile ref = Except.error e →
        (handlePage env Syncop.close ref w st).err = some e ∧
        (handlePage env Syncop.close ref w st).tr = [Ev.reconcile ref.id true] ∧
        evictLoop env Syncop.close (some ref) (w :: rest) st =
          { out := some (e, some ref), st := st,
            tr := [Ev.reconcile ref.id true],
            pages := [(ref.id, ref.page)] })) ∧
    (pageIsModified ref.page = false →
      ∀ i b, Ev.reconcile i b ∉ (handlePage env Syncop.close ref w st).tr) := by
  refine ⟨fun syncop hnc walks st2 => evictFile_noRec env syncop walks st2 hnc,
    fun hmod => ⟨?_, ?_⟩, ?_⟩
  · intro page2 hrec
    have hrs : reconcileStep env Syncop.close ref =
        Except.ok (page2, [Ev.reconcile ref.id true]) := by
      unfold reconcileStep
      rw [if_pos ⟨rfl, hmod⟩, hrec]
    unfold handlePage
    rw [hrs]
    dsimp only
    cases hwe : w.err with
    | some e => exact ⟨[Ev.walkAdvance], by simp, by simp⟩
    | none =>
      dsimp only
      split
      · cases env.evict ref <;>
          exact ⟨[Ev.walkAdvance, Ev.evict ref.id], by simp, by simp⟩
      · exact ⟨[Ev.walkAdvance], by simp, by simp⟩
  · intro e hrec
    have hrs : reconcileStep env Syncop.close ref = Except.error e := by
      unfold reconcileStep
      rw [if_pos ⟨rfl, hmod⟩, hrec]
    have hhp : handlePage env Syncop.close ref w st =
        { err := some e, cursor := some ref, st := st,
          tr := [Ev.reconcile ref.id true], finalPage := (ref.id, ref.page) } := by
      unfold handlePage
      rw [hrs]
    refine ⟨by rw [hhp], by rw [hhp], ?_⟩
    simp only [evictLoop]
    rw [hhp]
  · intro hmod i b h
    have hrs : reconcileStep env Syncop.close ref =
        Except.ok (ref.page, []) := by
      unfold reconcileStep
      rw [if_neg]
      simp [hmod]
    unfold handlePage at h
    rw [hrs] at h
    dsimp only at h
    cases hwe : w.err with
    | some e => rw [hwe] at h; simp at h
    | none =>
      rw [hwe] at h
      dsimp only at h
      split at h
      · cases hev : env.evict ref <;> rw [hev] at h <;> simp at h
      · simp at h


theorem passBody_discardForce (env : Env) (syncop : Syncop) (walks : List WalkOut)
    (st1 : St) (en : Bool) (h : st1.discardForce = false) :
    (passBody env syncop walks st1 en).st.discardForce = false := by
  cases hw0 : (takeWalk walks).1.err with
  | some e =>
    rw [passBody_walk0_err env syncop walks st1 en e hw0]
    dsimp only
    rw [errCleanup_st]
    cases en <;> simp [h]
  | none =>
    cases hlr : (evictLoop env syncop (takeWalk walks).1.cursor
        (takeWalk walks).2 st1).out with
    | some p =>
      obtain ⟨e, c⟩ := p
      rw [passBody_loop_err env syncop walks st1 en e c hw0 hlr]
      dsimp only
      rw [errCleanup_st]
      have := evictLoop_discardForce env syncop (takeWalk walks).2
        (takeWalk walks).1.cursor st1 h
      cases en <;> simp [this]
    | none =>
      rw [passBody_success env syncop walks st1 en hw0 hlr]
      have := evictLoop_discardForce env syncop (takeWalk walks).2
        (takeWalk walks).1.cursor st1 h
      cases en <;> simp [this]

theorem evictFile_discardForce (env : Env) (syncop : Syncop)
    (walks : List WalkOut) (st0 : St) (h : st0.discardForce = false) :
    (evictFile env syncop walks st0).st.discardForce = false := by
  by_cases hne : st0.noEviction = true
  · rw [evictFile_noEv env syncop walks st0 hne]
    exact passBody_discardForce env syncop walks st0 false h
  · have hne2 : st0.noEviction = false := by simpa using hne
    cases hx : env.exclusiveOn with
    | ok u =>
      cases u
      rw [evictFile_acq_ok env syncop walks st0 hne2 hx]
      exact passBody_discardForce env syncop walks _ true (by simpa using h)
    | error e =>
      rw [evictFile_acq_fail env syncop walks st0 e hne2 hx]
      exact h

/-- Claim C10: the session discard-force flag is clear after each page in
both discard modes; it is set only in Forced-discard mode immediately
before the page-clean update and cleared right after, the clear also runs
in plain Discard mode, and the flag never persists past the call. -/
theorem claim10 (env : Env) (syncop : Syncop) (ref : Ref) (w : WalkOut) (st : St)
    (hs : syncop = Syncop.discard ∨ syncop = Syncop.discardForce)
    (hf : st.discardForce = false) :
    (handlePage env syncop ref w st).st.discardForce = false ∧
    (syncop = Syncop.discard → Ev.setForce ∉ (handlePage env syncop ref w st).tr) ∧
    (syncop = Syncop.discardForce → (handlePage env syncop ref w st).err = none →
      ∃ pre, (handlePage env syncop ref w st).tr =
        pre ++ [Ev.setForce, Ev.cleanUpdate ref.id, Ev.clrForce] ∧
        Ev.setForce ∉ pre) ∧
    (syncop = Syncop.discard → (handlePage env syncop ref w st).err = none →
      ∃ pre, (handlePage env syncop ref w st).tr =
        pre ++ [Ev.cleanUpdate ref.id, Ev.clrForce]) ∧
    (∀ walks st0, st0.discardForce = false →
      (evictFile env syncop walks st0).st.discardForce = false) := by
  have hnc : ¬ syncop = Syncop.close := by rcases hs with rfl | rfl <;> simp
  refine ⟨handlePage_discardForce env syncop ref w st hf, ?_, ?_, ?_,
    fun walks st0 h0 => evictFile_discardForce env syncop walks st0 h0⟩
  · rintro rfl
    intro h
    unfold handlePage at h
    rw [reconcileStep_not_close env Syncop.discard ref (by decide)] at h
    dsimp only at h
    cases hwe : w.err with
    | some e => rw [hwe] at h; simp at h
    | none =>
      rw [hwe] at h
      unfold discardStep at h
      by_cases hmod : pageIsModified ref.page = true <;>
        simp only [hmod, ite_true, ite_false, Bool.false_eq_true, if_true,
          if_false] at h <;>
        split at h <;> simp at h
  · rintro rfl hnone
    rw [handlePage_discard_eq env Syncop.discardForce ref w st ?hw (Or.inr rfl)]
    case hw =>
      cases hwe : w.err with
      | some e =>
        exfalso
        unfold handlePage at hnone
        rw [reconcileStep_not_close env Syncop.discardForce ref (by decide)] at hnone
        dsimp only at hnone
        rw [hwe] at hnone
        simp at hnone
      | none => rfl
    unfold discardStep
    by_cases hmod : pageIsModified ref.page = true <;>
      simp only [hmod, ite_true, ite_false, Bool.false_eq_true, if_true, if_false]
    · rw [if_neg (by simp)]
      exact ⟨[Ev.walkAdvance, Ev.dirtyDecr ref.id], by simp, by simp⟩
    · rw [if_neg (by simp)]
      exact ⟨[Ev.walkAdvance], by simp, by simp⟩
  · rintro rfl hnone
    have hwe : w.err = none := by
      cases hwe2 : w.err with
      | some e =>
        exfalso
        unfold handlePage at hnone
        rw [reconcileStep_not_close env Syncop.discard ref (by decide)] at hnone
        dsimp only at hnone
        rw [hwe2] at hnone
        simp at hnone
      | none => rfl
    rw [handlePage_discard_eq env Syncop.discard ref w st hwe (Or.inl rfl)] at hnone ⊢
    unfold discardStep at hnone ⊢
    by_cases hmod : pageIsModified ref.page = true
    · simp only [hmod, ite_true] at hnone ⊢
      rcases (em _) with h | h
      · rw [if_pos h] at hnone
        simp at hnone
      · rw [if_neg h] at hnone
        rw [if_neg h]
        refine ⟨[Ev.walkAdvance, Ev.dirtyDecr ref.id], ?_⟩
        simp
    · simp only [hmod, ite_false, Bool.false_eq_true, if_false] at hnone ⊢
      rcases (em _) with h | h
      · rw [if_pos h] at hnone
        simp at hnone
      · rw [if_neg h] at hnone
        rw [if_neg h]
        refine ⟨[Ev.walkAdvance], ?_⟩
        simp


/-- Witness for claim C1 at a concrete dirty page and environment. -/
theorem claim1_witness :
    (refDirty.page.modify = some mDirty ∧
     envNoVis.visibleAll mDirty.rec_max_txn = false ∧ endOfTree.err = none) ∧
    ((handlePage envNoVis Syncop.discard refDirty endOfTree stStart).err =
        some Err.ebusy ∧
     Ev.cleanUpdate refDirty.id ∉
        (handlePage envNoVis Syncop.discard refDirty endOfTree stStart).tr ∧
     (handlePage envNoVis Syncop.discardForce refDirty endOfTree stStart).err =
        none ∧
     Ev.cleanUpdate refDirty.id ∈
        (handlePage envNoVis Syncop.discardForce refDirty endOfTree stStart).tr) :=
  ⟨⟨rfl, rfl, rfl⟩, claim1 envNoVis refDirty endOfTree stStart mDirty rfl rfl rfl⟩

/-- Witness for the amended claim C2 at a concrete dirty page. -/
theorem claim2_witness :
    (refDirty.page.modify = some mDirty ∧ mDirty.write_gen ≠ 0 ∧
     envNoVis.visibleAll mDirty.rec_max_txn = false ∧ endOfTree.err = none) ∧
    ((handlePage envNoVis Syncop.discard refDirty endOfTree stStart).err =
        some Err.ebusy ∧
     Ev.cleanUpdate refDirty.id ∉
        (handlePage envNoVis Syncop.discard refDirty endOfTree stStart).tr ∧
     (∀ i, Ev.evict i ∉
        (handlePage envNoVis Syncop.discard refDirty endOfTree stStart).tr) ∧
     (handlePage envNoVis Syncop.discard refDirty endOfTree stStart).finalPage.2.modify =
        some { mDirty with write_gen := 0 } ∧
     (handlePage envNoVis Syncop.discard refDirty endOfTree stStart).st.cacheDirty =
        stStart.cacheDirty - 1 ∧
     pageIsModified
        (handlePage envNoVis Syncop.discard refDirty endOfTree stStart).finalPage.2 =
        false) :=
  ⟨⟨rfl, by decide, rfl, rfl⟩,
    claim2 envNoVis refDirty endOfTree stStart mDirty rfl (by decide) rfl rfl⟩

/-- Witness for claim C3 at a concrete root page marked empty. -/
theorem claim3_witness :
    (reconcileStep envNoVis Syncop.close refRootEmpty =
      Except.ok (refRootEmpty.page, [Ev.reconcile refRootEmpty.id true]) ∧
     endOfTree.err = none) ∧
    (((Ev.evict refRootEmpty.id ∈
        (handlePage envNoVis Syncop.close refRootEmpty endOfTree stStart).tr) ↔
      (refRootEmpty.isRoot = true ∨ refRootEmpty.page.modify = none ∨
        pmRecEmpty refRootEmpty.page = false)) ∧
     (refRootEmpty.isRoot = true → Ev.evict refRootEmpty.id ∈
        (handlePage envNoVis Syncop.close refRootEmpty endOfTree stStart).tr) ∧
     (¬ (refRootEmpty.isRoot = true ∨ refRootEmpty.page.modify = none ∨
          pmRecEmpty refRootEmpty.page = false) →
      (handlePage envNoVis Syncop.close refRootEmpty endOfTree stStart).err = none ∧
      (∀ i, Ev.evict i ∉
        (handlePage envNoVis Syncop.close refRootEmpty endOfTree stStart).tr) ∧
      Ev.cleanUpdate refRootEmpty.id ∉
        (handlePage envNoVis Syncop.close refRootEmpty endOfTree stStart).tr)) :=
  ⟨⟨rfl, rfl⟩,
    claim3 envNoVis refRootEmpty endOfTree stStart refRootEmpty.page
      [Ev.reconcile refRootEmpty.id true] rfl rfl⟩


/-- Witness for claim C4 at a concrete failing-reconciliation run. -/
theorem claim4_witness :
    (∀ syncop, ¬ syncop = Syncop.close →
      ∀ walks st2 i b, Ev.reconcile i b ∉ (evictFile envRecFail syncop walks st2).tr) ∧
    (pageIsModified refDirty.page = true →
      (∀ page2, envRecFail.reconcile refDirty = Except.ok page2 →
        ∃ tl, (handlePage envRecFail Syncop.close refDirty endOfTree stStart).tr =
          Ev.reconcile refDirty.id true :: tl ∧ ∀ i b, Ev.reconcile i b ∉ tl) ∧
      (∀ e, envRecFail.reconcile refDirty = Except.error e →
        (handlePage envRecFail Syncop.close refDirty endOfTree stStart).err = some e ∧
        (handlePage envRecFail Syncop.close refDirty endOfTree stStart).tr =
          [Ev.reconcile refDirty.id true] ∧
        evictLoop envRecFail Syncop.close (some refDirty) (endOfTree :: []) stStart =
          { out := some (e, some refDirty), st := stStart,
            tr := [Ev.reconcile refDirty.id true],
            pages := [(refDirty.id, refDirty.page)] })) ∧
    (pageIsModified refDirty.page = false →
      ∀ i b, Ev.reconcile i b ∉
        (handlePage envRecFail Syncop.close refDirty endOfTree stStart).tr) :=
  claim4 envRecFail refDirty endOfTree stStart []

/-- Witness for claim C5 at a concrete forced-discard page handling. -/
theorem claim5_witness :
    (∀ ev ∈ (handlePage envNoVis Syncop.discardForce refDirty endOfTree stStart).tr.takeWhile
        (fun x => ! isWalkEv x), isRecEv ev = true) ∧
    (∀ page2 tr0, reconcileStep envNoVis Syncop.discardForce refDirty =
        Except.ok (page2, tr0) →
      List.countP isWalkEv
        (handlePage envNoVis Syncop.discardForce refDirty endOfTree stStart).tr = 1) ∧
    (∀ ev ∈ (handlePage envNoVis Syncop.discardForce refDirty endOfTree stStart).tr.dropWhile
        (fun x => ! isWalkEv x), isRecEv ev = false) ∧
    ((handlePage envNoVis Syncop.discardForce refDirty endOfTree stStart).err = none →
      evictLoop envNoVis Syncop.discardForce (some refDirty) (endOfTree :: []) stStart =
        { out := (evictLoop envNoVis Syncop.discardForce
            (handlePage envNoVis Syncop.discardForce refDirty endOfTree stStart).cursor
            [] (handlePage envNoVis Syncop.discardForce refDirty endOfTree stStart).st).out,
          st := (evictLoop envNoVis Syncop.discardForce
            (handlePage envNoVis Syncop.discardForce refDirty endOfTree stStart).cursor
            [] (handlePage envNoVis Syncop.discardForce refDirty endOfTree stStart).st).st,
          tr := (handlePage envNoVis Syncop.discardForce refDirty endOfTree stStart).tr ++
            (evictLoop envNoVis Syncop.discardForce
              (handlePage envNoVis Syncop.discardForce refDirty endOfTree stStart).cursor
              [] (handlePage envNoVis Syncop.discardForce refDirty endOfTree stStart).st).tr,
          pages := (handlePage envNoVis Syncop.discardForce refDirty endOfTree stStart).finalPage ::
            (evictLoop envNoVis Syncop.discardForce
              (handlePage envNoVis Syncop.discardForce refDirty endOfTree stStart).cursor
              [] (handlePage envNoVis Syncop.discardForce refDirty endOfTree stStart).st).pages }) :=
  claim5 envNoVis Syncop.discardForce refDirty endOfTree stStart []

/-- Witness for claim C6 at a concrete busy-stopped discard handling. -/
theorem claim6_witness :
    ((handlePage envNoVis Syncop.discard refDirty endOfTree stStart).err =
      some Err.ebusy) ∧
    ((evictLoop envNoVis Syncop.discard (some refDirty) (endOfTree :: []) stStart).out =
      some (Err.ebusy,
        (handlePage envNoVis Syncop.discard refDirty endOfTree stStart).cursor) ∧
    (errCleanup envNoVis Err.ebusy (some refDirty) true stStart).ret =
      Except.error Err.ebusy ∧
    (∀ r, some refDirty = some r →
      Ev.pageRelease r.id ∈
        (errCleanup envNoVis Err.ebusy (some refDirty) true stStart).tr) ∧
    (true = true →
      Ev.exclusiveOff ∈ (errCleanup envNoVis Err.ebusy (some refDirty) true stStart).tr ∧
      (errCleanup envNoVis Err.ebusy (some refDirty) true stStart).st.noEviction = false) ∧
    (true = false →
      (errCleanup envNoVis Err.ebusy (some refDirty) true stStart).st = stStart ∧
      Ev.exclusiveOff ∉ (errCleanup envNoVis Err.ebusy (some refDirty) true stStart).tr) ∧
    (∀ walks st1, (takeWalk walks).1.err = none →
      (evictLoop envNoVis Syncop.discard (takeWalk walks).1.cursor (takeWalk walks).2 st1).out
        = some (Err.ebusy, some refDirty) →
      (passBody envNoVis Syncop.discard walks st1 true).ret = Except.error Err.ebusy ∧
      (∀ r, some refDirty = some r →
        Ev.pageRelease r.id ∈ (passBody envNoVis Syncop.discard walks st1 true).tr))) :=
  ⟨rfl, claim6 envNoVis Syncop.discard refDirty endOfTree [] stStart Err.ebusy
    (some refDirty) true rfl⟩

/-- Witness for claim C7 at a concrete eviction-disabled entry state. -/
theorem claim7_witness :
    (stNoEv.noEviction = true →
      (evictFile envNoVis Syncop.discard [] stNoEv).st.noEviction = true ∧
      Ev.exclusiveOn ∉ (evictFile envNoVis Syncop.discard [] stNoEv).tr ∧
      Ev.exclusiveOff ∉ (evictFile envNoVis Syncop.discard [] stNoEv).tr) ∧
    (stNoEv.noEviction = false → envNoVis.exclusiveOn = Except.ok () →
      Ev.exclusiveOn ∈ (evictFile envNoVis Syncop.discard [] stNoEv).tr ∧
      Ev.exclusiveOff ∈ (evictFile envNoVis Syncop.discard [] stNoEv).tr ∧
      (evictFile envNoVis Syncop.discard [] stNoEv).st.noEviction = false) ∧
    (stNoEv.noEviction = false → envNoVis.exclusiveOn = Except.error (Err.ext 16) →
      evictFile envNoVis Syncop.discard [] stNoEv =
        { ret := Except.error (Err.ext 16), tr := [], pages := [], st := stNoEv }) :=
  claim7 envNoVis Syncop.discard [] stNoEv (Err.ext 16)

/-- Witness for claim C8 at a concrete dirty page in Discard mode. -/
theorem claim8_witness :
    ((Syncop.discard = Syncop.discard ∨ Syncop.discard = Syncop.discardForce) ∧
      endOfTree.err = none) ∧
    (List.countP (isDirtyDecr refDirty.id)
        (handlePage envNoVis Syncop.discard refDirty endOfTree stStart).tr =
      (if pageIsModified refDirty.page then 1 else 0) ∧
    (handlePage envNoVis Syncop.discard refDirty endOfTree stStart).st.cacheDirty =
      stStart.cacheDirty - (if pageIsModified refDirty.page then 1 else 0) ∧
    (pageIsModified refDirty.page = true →
      (handlePage envNoVis Syncop.discard refDirty endOfTree stStart).finalPage.2 =
        zeroWriteGen refDirty.page) ∧
    pageIsModified
      (handlePage envNoVis Syncop.discard refDirty endOfTree stStart).finalPage.2 =
      false) :=
  ⟨⟨Or.inl rfl, rfl⟩,
    claim8 envNoVis Syncop.discard refDirty endOfTree stStart (Or.inl rfl) rfl⟩

/-- Witness for claim C9 at a concrete empty walk. -/
theorem claim9_witness :
    ((takeWalk ([] : List WalkOut)).1 = endOfTree ∧
     (stStart.noEviction = false → envNoVis.exclusiveOn = Except.ok ())) ∧
    ((evictFile envNoVis Syncop.close [] stStart).ret = Except.ok () ∧
     (evictFile envNoVis Syncop.close [] stStart).pages = [] ∧
     List.countP isOldestEv (evictFile envNoVis Syncop.close [] stStart).tr = 1 ∧
     (∀ i b, Ev.reconcile i b ∉ (evictFile envNoVis Syncop.close [] stStart).tr) ∧
     (∀ i, Ev.evict i ∉ (evictFile envNoVis Syncop.close [] stStart).tr) ∧
     (∀ i, Ev.cleanUpdate i ∉ (evictFile envNoVis Syncop.close [] stStart).tr) ∧
     (∀ i, Ev.dirtyDecr i ∉ (evictFile envNoVis Syncop.close [] stStart).tr) ∧
     (stStart.noEviction = false →
       Ev.exclusiveOff ∈ (evictFile envNoVis Syncop.close [] stStart).tr ∧
       (evictFile envNoVis Syncop.close [] stStart).st.noEviction = false) ∧
     (stStart.noEviction = true → (evictFile envNoVis Syncop.close [] stStart).st = stStart)) :=
  ⟨⟨rfl, fun _ => rfl⟩,
    claim9 envNoVis Syncop.close [] stStart rfl (fun _ => rfl)⟩

/-- Witness for claim C10 at a concrete forced-discard handling. -/
theorem claim10_witness :
    ((Syncop.discardForce = Syncop.discard ∨ Syncop.discardForce = Syncop.discardForce) ∧
      stStart.discardForce = false) ∧
    ((handlePage envNoVis Syncop.discardForce refDirty endOfTree stStart).st.discardForce = false ∧
    (Syncop.discardForce = Syncop.discard →
      Ev.setForce ∉ (handlePage envNoVis Syncop.discardForce refDirty endOfTree stStart).tr) ∧
    (Syncop.discardForce = Syncop.discardForce →
      (handlePage envNoVis Syncop.discardForce refDirty endOfTree stStart).err = none →
      ∃ pre, (handlePage envNoVis Syncop.discardForce refDirty endOfTree stStart).tr =
        pre ++ [Ev.setForce, Ev.cleanUpdate refDirty.id, Ev.clrForce] ∧
        Ev.setForce ∉ pre) ∧
    (Syncop.discardForce = Syncop.discard →
      (handlePage envNoVis Syncop.discardForce refDirty endOfTree stStart).err = none →
      ∃ pre, (handlePage envNoVis Syncop.discardForce refDirty endOfTree stStart).tr =
        pre ++ [Ev.cleanUpdate refDirty.id, Ev.clrForce]) ∧
    (∀ walks st0, st0.discardForce = false →
      (evictFile envNoVis Syncop.discardForce walks st0).st.discardForce = false)) :=
  ⟨⟨Or.inr rfl, rfl⟩,
    claim10 envNoVis Syncop.discardForce refDirty endOfTree stStart (Or.inr rfl) rfl⟩

end WtEvict
